import Mathlib

/-!
Verification of the SiriusAgentBrowser core against its specification.

The definitions below are shallow embeddings of the Python sources:
  * `src/planner/models.py`   — `Step`, `Plan` and their pydantic validation;
  * `src/browser/browser_controller.py` — the in-page element scan of
    `screenshot_with_bboxes` and the raster-metadata drawing loop;
  * `src/orchestrator/orchestrator.py`  — the cycle-detection block and the
    step-execution loop of `process_request`;
  * `src/vlm/vlm.py`          — `VisionAgent.execute_step` and its helpers.

External collaborators (the Playwright page, the LLM planner, the VLM) are
modelled as oracles: functions supplied as arguments whose fallible calls
return `Except String α`, an exception being `Except.error`.
-/

/-! ### Generic helpers -/

/-- Decimal digits of `n` (most significant first), driven by fuel so that the
recursion is structural and kernel-reducible.  `decDigits fuel n` is correct
whenever `n ≤ fuel`. -/
def decDigits : Nat → Nat → List Nat
  | 0, _ => []
  | fuel + 1, n => if n = 0 then [] else decDigits fuel (n / 10) ++ [n % 10]

/-- Value of a most-significant-first digit list. -/
def decValue (l : List Nat) : Nat := l.foldl (fun a d => 10 * a + d) 0

/-- Decimal rendering of a natural number, as produced by JavaScript string
interpolation or Python `str`. -/
def decStr (n : Nat) : String :=
  if n = 0 then "0" else String.mk ((decDigits n n).map Nat.digitChar)

/-- Decimal rendering of an integer. -/
def intStr (i : Int) : String :=
  if i < 0 then "-" ++ decStr (-i).toNat else decStr i.toNat

theorem decValue_concat (l : List Nat) (d : Nat) :
    decValue (l ++ [d]) = 10 * decValue l + d := by
  simp [decValue, List.foldl_append]

theorem decValue_decDigits : ∀ fuel n, n ≤ fuel → decValue (decDigits fuel n) = n := by
  intro fuel
  induction fuel with
  | zero =>
    intro n hn
    interval_cases n
    simp [decDigits, decValue]
  | succ fuel ih =>
    intro n hn
    by_cases h0 : n = 0
    · simp [decDigits, h0, decValue]
    · have hdiv : n / 10 ≤ fuel := by
        have : n / 10 < n := Nat.div_lt_self (Nat.pos_of_ne_zero h0) (by omega)
        omega
      simp only [decDigits, h0, if_false]
      rw [decValue_concat, ih _ hdiv]
      omega

theorem decDigits_lt_ten : ∀ fuel n d, d ∈ decDigits fuel n → d < 10 := by
  intro fuel
  induction fuel with
  | zero => intro n d hd; simp [decDigits] at hd
  | succ fuel ih =>
    intro n d hd
    by_cases h0 : n = 0
    · simp [decDigits, h0] at hd
    · simp only [decDigits, h0, if_false, List.mem_append, List.mem_singleton] at hd
      rcases hd with hd | hd
      · exact ih _ _ hd
      · omega

theorem digitChar_inj_lt_ten {a b : Nat} (ha : a < 10) (hb : b < 10)
    (h : Nat.digitChar a = Nat.digitChar b) : a = b := by
  have key : ∀ x y : Fin 10, Nat.digitChar x.val = Nat.digitChar y.val → x = y := by decide
  have h2 : (⟨a, ha⟩ : Fin 10) = ⟨b, hb⟩ := key ⟨a, ha⟩ ⟨b, hb⟩ h
  exact congrArg Fin.val h2

theorem map_digitChar_inj : ∀ l1 l2 : List Nat, (∀ d ∈ l1, d < 10) → (∀ d ∈ l2, d < 10) →
    l1.map Nat.digitChar = l2.map Nat.digitChar → l1 = l2 := by
  intro l1
  induction l1 with
  | nil => intro l2 _ _ h; cases l2 <;> simp_all
  | cons a t ih =>
    intro l2 h1 h2 h
    cases l2 with
    | nil => simp at h
    | cons b t2 =>
      simp only [List.map_cons, List.cons.injEq] at h
      have hab : a = b :=
        digitChar_inj_lt_ten (h1 a (by simp)) (h2 b (by simp)) h.1
      have ht : t = t2 :=
        ih t2 (fun d hd => h1 d (by simp [hd])) (fun d hd => h2 d (by simp [hd])) h.2
      rw [hab, ht]

theorem string_mk_inj {a b : List Char} (h : String.mk a = String.mk b) : a = b :=
  congrArg String.data h

theorem decStr_inj : ∀ m n : Nat, decStr m = decStr n → m = n := by
  have nonzero_case : ∀ k : Nat, k ≠ 0 →
      ¬ String.mk ((decDigits k k).map Nat.digitChar) = "0" := by
    intro k hk h
    have hd := string_mk_inj h
    have : (decDigits k k).map Nat.digitChar = ['0'] := hd
    match hl : decDigits k k with
    | [] => rw [hl] at this; simp at this
    | d :: rest =>
      rw [hl] at this
      simp only [List.map_cons, List.cons.injEq] at this
      have hrest : rest = [] := by
        cases rest with
        | nil => rfl
        | cons x xs => simp at this
      have hdval : d = 0 := by
        have hd10 : d < 10 := decDigits_lt_ten k k d (by rw [hl]; simp)
        have : Nat.digitChar d = '0' := this.1
        have h0 : Nat.digitChar 0 = '0' := by decide
        exact digitChar_inj_lt_ten hd10 (by omega) (by rw [this, h0])
      have hval := decValue_decDigits k k (le_refl k)
      rw [hl, hrest, hdval] at hval
      simp [decValue] at hval
      exact hk hval.symm
  intro m n h
  by_cases hm : m = 0 <;> by_cases hn : n = 0
  · omega
  · exfalso; exact nonzero_case n hn (by simpa [decStr, hm, hn] using h.symm)
  · exfalso; exact nonzero_case m hm (by simpa [decStr, hm, hn] using h)
  · have hmaps : (decDigits m m).map Nat.digitChar = (decDigits n n).map Nat.digitChar := by
      have := h
      simp only [decStr, hm, hn, if_false] at this
      exact string_mk_inj this
    have hdig := map_digitChar_inj _ _ (fun d hd => decDigits_lt_ten m m d hd)
      (fun d hd => decDigits_lt_ten n n d hd) hmaps
    have h1 := decValue_decDigits m m (le_refl m)
    have h2 := decValue_decDigits n n (le_refl n)
    rw [← h1, ← h2, hdig]

/-- `needle` occurs as a contiguous substring of the character list
(the semantics of Python's `in` on strings). -/
def subList (needle : List Char) : List Char → Bool
  | [] => needle.isEmpty
  | c :: rest => needle.isPrefixOf (c :: rest) || subList needle rest

/-- Python's `needle in hay` for strings. -/
def strContains (hay needle : String) : Bool := subList needle.data hay.data

/-- Python's `l[-n:]` window (for `n > 0`). -/
def lastWindow (n : Nat) (l : List α) : List α := l.drop (l.length - n)

/-! ### Planner data model — `src/planner/models.py`

`Action` is the `Literal` of permitted step actions (lines 5–17 of
`models.py`).  `Step` and `Plan` carry the raw fields; `stepOk` and `mkPlan`
perform the pydantic field validation, and `validate_steps` is the
`@model_validator` of `Plan` (lines 37–54). -/

/-- The `Action` literal from `models.py`, in source order. -/
def actionLiterals : List String :=
  ["navigate", "click", "type", "scroll", "extract", "hover",
   "inspect", "wait", "finish", "search", "solve_captcha"]

structure Step where
  step_id : Int
  action : String
  description : String
  expected_result : String
deriving DecidableEq, Repr

/-- Pydantic field validation of one `Step`:
`step_id` has `ge=1`, `action` must be one of the literals, `description` and
`expected_result` have `min_length=3, max_length=200`. -/
def stepOk (s : Step) : Bool :=
  decide (1 ≤ s.step_id) && actionLiterals.contains s.action &&
  decide (3 ≤ s.description.length) && decide (s.description.length ≤ 200) &&
  decide (3 ≤ s.expected_result.length) && decide (s.expected_result.length ≤ 200)

/-- Constructing one `Step` (pydantic model validation). -/
def mkStep (step_id : Int) (action description expected_result : String) :
    Except String Step :=
  let s : Step := ⟨step_id, action, description, expected_result⟩
  if stepOk s then .ok s else .error "Step validation failed"

structure Plan where
  reasoning : String
  task : String
  steps : List Step
  estimated_time : Int
  needs_vision : Bool
deriving DecidableEq, Repr

/-- The step ids of a plan, in plan order. -/
def stepIds (steps : List Step) : List Int := steps.map (fun s => s.step_id)

/-- `sorted(ids)` of Python: ascending sort of the step ids. -/
def sortedStepIds (steps : List Step) : List Int :=
  List.insertionSort (· ≤ ·) (stepIds steps)

/-- `Plan.validate_steps` (models.py lines 37–54): reject duplicate ids, then
require the sorted ids to equal `range(start, start + len(steps))` where
`start` is the smallest id. -/
def validate_steps (steps : List Step) : Except String Unit :=
  if (stepIds steps).dedup.length ≠ (stepIds steps).length then
    .error "Duplicate step_id in steps"
  else
    match sortedStepIds steps with
    | [] => .ok ()
    | start :: tailSorted =>
      if start :: tailSorted = (List.range steps.length).map (fun i : Nat => start + (i : Int)) then
        .ok ()
      else .error "step_id must be sequential without gaps"

/-- Constructing a `Plan`: pydantic field validation (`task` 3..200 chars,
at most 10 steps, `estimated_time` 1..3600, every step valid) followed by
`validate_steps`. -/
def mkPlan (reasoning task : String) (steps : List Step) (estimated_time : Int)
    (needs_vision : Bool) : Except String Plan :=
  if ¬ (3 ≤ task.length ∧ task.length ≤ 200) then .error "task length out of range"
  else if ¬ steps.length ≤ 10 then .error "steps list too long"
  else if ¬ (1 ≤ estimated_time ∧ estimated_time ≤ 3600) then .error "estimated_time out of range"
  else if ¬ steps.all stepOk then .error "invalid step"
  else
    match validate_steps steps with
    | .error e => .error e
    | .ok _ => .ok ⟨reasoning, task, steps, estimated_time, needs_vision⟩

theorem mkPlan_ok_validate (r t : String) (steps : List Step) (et : Int) (nv : Bool)
    (h : (mkPlan r t steps et nv).isOk = true) : (validate_steps steps).isOk = true := by
  unfold mkPlan at h
  split at h
  · simp [Except.isOk, Except.toBool] at h
  · split at h
    · simp [Except.isOk, Except.toBool] at h
    · split at h
      · simp [Except.isOk, Except.toBool] at h
      · split at h
        · simp [Except.isOk, Except.toBool] at h
        · split at h
          · next heq => simp_all [Except.isOk, Except.toBool]
          · next heq => simp [heq, Except.isOk, Except.toBool]

theorem validate_error_of_dup (steps : List Step) (h : ¬ (stepIds steps).Nodup) :
    (validate_steps steps).isOk = false := by
  have hne : (stepIds steps).dedup.length ≠ (stepIds steps).length := by
    intro hlen
    have hsub := List.dedup_sublist (stepIds steps)
    have heq := hsub.eq_of_length hlen
    exact h (heq ▸ List.nodup_dedup (stepIds steps))
  simp [validate_steps, hne, Except.isOk, Except.toBool]

theorem validate_ok_consecutive (steps : List Step)
    (hok : (validate_steps steps).isOk = true)
    (i : Nat) (h : i + 1 < (sortedStepIds steps).length) :
    (sortedStepIds steps).get ⟨i + 1, h⟩ =
      (sortedStepIds steps).get ⟨i, Nat.lt_of_succ_lt h⟩ + 1 := by
  unfold validate_steps at hok
  split at hok
  · simp [Except.isOk, Except.toBool] at hok
  · split at hok
    · next heq => rw [heq] at h; simp at h
    · next start tailSorted heq =>
      split at hok
      · next hcond =>
        have hsorted : sortedStepIds steps =
            (List.range steps.length).map (fun j : Nat => start + (j : Int)) := by
          rw [heq, hcond]
        have hlen : (sortedStepIds steps).length = steps.length := by
          rw [hsorted]; simp
        have hget : ∀ j (hj : j < (sortedStepIds steps).length),
            (sortedStepIds steps).get ⟨j, hj⟩ = start + (j : Int) := by
          intro j hj
          have hj' : j < steps.length := hlen ▸ hj
          simp [hsorted, List.get_eq_getElem]
        rw [hget (i + 1) h, hget i (Nat.lt_of_succ_lt h)]
        push_cast
        ring
      · simp [Except.isOk, Except.toBool] at hok

theorem mkPlan_isOk_false_of_validate (r t : String) (steps : List Step) (et : Int)
    (nv : Bool) (h : (validate_steps steps).isOk = false) :
    (mkPlan r t steps et nv).isOk = false := by
  cases hok : (mkPlan r t steps et nv).isOk
  · rfl
  · exact absurd (mkPlan_ok_validate r t steps et nv hok) (by simp [h])

/-- A sample valid step with a given id (used for the concrete examples). -/
def stepEx (i : Int) : Step :=
  ⟨i, "click", "Click the target button", "The button is clicked"⟩

/-- C1: `Plan` construction validates step ids: a duplicate id is rejected, a
gap in the sorted ids is rejected, and ids `[1,2]` are accepted; in particular
ids `[1,3]` (gap) and `[1,1]` (duplicate) are rejected while `[1,2]` passes. -/
theorem plan_ids_validated :
    (∀ (r t : String) (steps : List Step) (et : Int) (nv : Bool),
       ¬ (stepIds steps).Nodup → (mkPlan r t steps et nv).isOk = false)
    ∧ (∀ (r t : String) (steps : List Step) (et : Int) (nv : Bool)
         (i : Nat) (h : i + 1 < (sortedStepIds steps).length),
       (sortedStepIds steps).get ⟨i, Nat.lt_of_succ_lt h⟩ + 1 <
           (sortedStepIds steps).get ⟨i + 1, h⟩ →
       (mkPlan r t steps et nv).isOk = false)
    ∧ (mkPlan "r" "Open the example site" [stepEx 1, stepEx 3] 60 false).isOk = false
    ∧ (mkPlan "r" "Open the example site" [stepEx 1, stepEx 1] 60 false).isOk = false
    ∧ (mkPlan "r" "Open the example site" [stepEx 1, stepEx 2] 60 false).isOk = true := by
  refine ⟨?_, ?_, by decide, by decide, by decide⟩
  · intro r t steps et nv hdup
    exact mkPlan_isOk_false_of_validate r t steps et nv (validate_error_of_dup steps hdup)
  · intro r t steps et nv i h hgap
    apply mkPlan_isOk_false_of_validate
    cases hok : (validate_steps steps).isOk
    · rfl
    · exfalso
      have := validate_ok_consecutive steps hok i h
      omega

/-- C1 witness: the general parts applied to the concrete duplicate list
`[1,1]` and the concrete gap list `[1,3]`. -/
theorem plan_ids_validated_witness :
    (mkPlan "r" "Open the example site" [stepEx 1, stepEx 1] 60 false).isOk = false
    ∧ (mkPlan "r" "Open the example site" [stepEx 1, stepEx 3] 60 false).isOk = false :=
  ⟨plan_ids_validated.1 "r" "Open the example site" [stepEx 1, stepEx 1] 60 false (by decide),
   plan_ids_validated.2.1 "r" "Open the example site" [stepEx 1, stepEx 3] 60 false
     0 (by decide) (by decide)⟩

/-- C2: the `Action` literal in `models.py` does NOT contain `"ask_user"`
(although the planner prompt in `planner.py` line 26 instructs the model to
use it and `orchestrator.py` line 216 dispatches on it): a `Step` whose other
fields are valid is rejected when its action is `"ask_user"`, while the listed
action `"solve_captcha"` is accepted. -/
theorem ask_user_not_in_action_enum :
    actionLiterals.contains "ask_user" = false
    ∧ (mkStep 1 "ask_user" "Ask the user for the 2FA code" "User provides the code").isOk
        = false
    ∧ (mkStep 1 "solve_captcha" "Solve the visible captcha" "The captcha is solved").isOk
        = true := by
  refine ⟨by decide, by decide, by decide⟩

/-- C10: `validate_steps` accepts any plan whose sorted step ids are
contiguous from an arbitrary starting integer, not only from 1; in particular
plans with ids `[2,3]` and `[5,6,7]` are accepted in full construction. -/
theorem contiguous_ids_any_start :
    (∀ (steps : List Step) (start : Int),
       sortedStepIds steps = (List.range steps.length).map (fun i : Nat => start + (i : Int)) →
       validate_steps steps = .ok ())
    ∧ (mkPlan "r" "Open the example site" [stepEx 2, stepEx 3] 60 false).isOk = true
    ∧ (mkPlan "r" "Open the example site" [stepEx 5, stepEx 6, stepEx 7] 60 false).isOk
        = true := by
  refine ⟨?_, by decide, by decide⟩
  intro steps start h
  have hinj : Function.Injective (fun i : Nat => start + (i : Int)) := by
    intro a b hab
    simp only at hab
    omega
  have hnodupSorted : (sortedStepIds steps).Nodup := by
    rw [h]
    exact List.Nodup.map hinj (List.nodup_range _)
  have hnodup : (stepIds steps).Nodup :=
    (List.perm_insertionSort (· ≤ ·) (stepIds steps)).nodup hnodupSorted
  have hdedup : (stepIds steps).dedup = stepIds steps := List.dedup_eq_self.mpr hnodup
  have hguard : ¬ (stepIds steps).dedup.length ≠ (stepIds steps).length := by
    rw [hdedup]; omega
  simp only [validate_steps, if_neg hguard]
  split
  · rfl
  · next start' tail' heq =>
    have hform : start' :: tail' =
        (List.range steps.length).map (fun i : Nat => start + (i : Int)) :=
      heq.symm.trans h
    rcases hlen : steps.length with _ | n
    · rw [hlen] at hform; simp at hform
    · rw [hlen, List.range_succ_eq_map] at hform
      simp only [List.map_cons] at hform
      injection hform with h1 h2
      rw [if_pos]
      rw [List.range_succ_eq_map]
      simp only [List.map_cons]
      refine congrArg₂ List.cons ?_ ?_
      · simp
      · rw [h2]
        apply List.map_congr_left
        intro x _
        rw [h1]
        push_cast
        ring

/-- C10 witness: the general part applied to concrete plans with ids `[2,3]`
and `[5,6,7]`. -/
theorem contiguous_ids_any_start_witness :
    validate_steps [stepEx 2, stepEx 3] = .ok ()
    ∧ validate_steps [stepEx 5, stepEx 6, stepEx 7] = .ok () :=
  ⟨contiguous_ids_any_start.1 [stepEx 2, stepEx 3] 2 (by decide),
   contiguous_ids_any_start.1 [stepEx 5, stepEx 6, stepEx 7] 5 (by decide)⟩

/-! ### Grounding Engine — `src/browser/browser_controller.py`

`screenshot_with_bboxes` evaluates an in-page script (lines 341–448) that
enumerates candidate nodes, filters by visibility, clamps bounding rects to
the viewport and assigns sequential ids `E1, E2, …`; the Python side then
truncates to `max_elements` (line 452) and, when a raster image is produced,
draws the boxes and collects per-element metadata (lines 494–541).

Geometry is modelled over `ℚ` (JavaScript numbers).  Inspecting one candidate
(`getComputedStyle`, `getBoundingClientRect`, `getType`, `getText`, attribute
reads) can throw, and the scan script contains no per-candidate handler, so a
candidate is modelled as `Except String Candidate`: the inspection's result
or its fault. -/

structure RawRect where
  x : Rat
  y : Rat
  width : Rat
  height : Rat
deriving DecidableEq, Repr

/-- One candidate DOM node as seen by the scan script: its bounding rect, the
style-based hidden test, `aria-hidden`, and the results of `getType`,
`getText` and the tag-specific attribute reads. -/
structure Candidate where
  rect : RawRect
  styleHidden : Bool
  ariaHidden : Bool
  typ : String
  text : String
  isAnchor : Bool
  isInput : Bool
  href : String
  placeholder : String
  value : String
deriving DecidableEq, Repr

structure BBox where
  x : Rat
  y : Rat
  w : Rat
  h : Rat
deriving DecidableEq, Repr

/-- One element of the returned snapshot (`out.push({id, type, text, bbox,
attributes})`); the id string is `"E" ++ decStr idNum`. -/
structure ScanElem where
  idNum : Nat
  typ : String
  text : String
  bbox : BBox
  attrs : List (String × String)
deriving DecidableEq, Repr

/-- The id string `E${idx}` of a scanned element. -/
def elemId (e : ScanElem) : String := "E" ++ decStr e.idNum

/-- The JS `clamp(v, lo, hi) = Math.max(lo, Math.min(hi, v))`. -/
def clampQ (v lo hi : Rat) : Rat := max lo (min hi v)

/-- The `isVisible` test of the scan script (lines 359–373): not hidden by
style, raw rect at least 8×8, and the rect intersects the viewport. -/
def isVisible (vw vh : Rat) (c : Candidate) : Bool :=
  if c.styleHidden then false
  else if c.rect.width < 8 ∨ c.rect.height < 8 then false
  else if c.rect.y + c.rect.height ≤ 0 ∨ c.rect.x + c.rect.width ≤ 0 then false
  else if vh ≤ c.rect.y ∨ vw ≤ c.rect.x then false
  else true

/-- The `attrs` object collected for an element (lines 423–430). -/
def candAttrs (c : Candidate) : List (String × String) :=
  (if c.isAnchor then [("href", c.href)] else []) ++
  (if c.isInput then [("placeholder", c.placeholder), ("value", c.value)] else [])

/-- The scan loop (lines 400–441): skip invisible or `aria-hidden` candidates,
clamp the rect to the viewport, re-check the 8×8 minimum after clamping, push
the element with id `E${idx++}`, and stop after 2000 pushed elements.  A fault
while inspecting a candidate propagates — the script has no handler. -/
def scanLoop (vw vh : Rat) :
    List (Except String Candidate) → Nat → Except String (List ScanElem)
  | [], _ => .ok []
  | .error e :: _, _ => .error e
  | .ok c :: rest, n =>
    if isVisible vw vh c = false then scanLoop vw vh rest n
    else if c.ariaHidden = true then scanLoop vw vh rest n
    else
      let x := clampQ c.rect.x 0 vw
      let y := clampQ c.rect.y 0 vh
      let x2 := clampQ (c.rect.x + c.rect.width) 0 vw
      let y2 := clampQ (c.rect.y + c.rect.height) 0 vh
      let w := x2 - x
      let h := y2 - y
      if w < 8 ∨ h < 8 then scanLoop vw vh rest n
      else
        let e : ScanElem := ⟨n + 1, c.typ, c.text, ⟨x, y, w, h⟩, candAttrs c⟩
        if 2000 ≤ n + 1 then .ok [e]
        else
          match scanLoop vw vh rest (n + 1) with
          | .error err => .error err
          | .ok es => .ok (e :: es)

/-- The element list handed back by `screenshot_with_bboxes`: the scan result
truncated to `max_elements` (Python line 452). -/
def scanElements (vw vh : Rat) (cands : List (Except String Candidate))
    (maxElements : Nat) : Except String (List ScanElem) :=
  match scanLoop vw vh cands 0 with
  | .error e => .error e
  | .ok es => .ok (es.take maxElements)

/-- Python `int()` — truncation toward zero (the numerator and denominator of
a `Rat` are already reduced, and `q.den` is positive). -/
def truncInt (q : Rat) : Int :=
  if 0 ≤ q.num then Int.ofNat (q.num.toNat / q.den)
  else - Int.ofNat ((- q.num).toNat / q.den)

/-- `clamp_px` of the drawing loop. -/
def clampPx (v lo hi : Int) : Int := max lo (min hi v)

/-- One entry of the raster metadata (`meta["elements"]`, lines 533–541). -/
structure MetaElem where
  id : String
  typ : String
  text : String
  bbox_css : BBox
  x1 : Int
  y1 : Int
  x2 : Int
  y2 : Int
deriving DecidableEq, Repr

/-- The drawing loop of `screenshot_with_bboxes` (lines 499–541): scale each
css bbox by the device-pixel ratio with `padding`, clamp to the image bounds
`W × H`, and skip the element entirely — including its metadata entry — when
the clamped pixel box degenerates (`x2 <= x1 or y2 <= y1`, line 512). -/
def drawMetaOne (dpr : Rat) (W H : Int) (padding : Rat) (el : ScanElem) :
    Option MetaElem :=
  let x1 := clampPx (truncInt ((el.bbox.x - padding) * dpr)) 0 (W - 1)
  let y1 := clampPx (truncInt ((el.bbox.y - padding) * dpr)) 0 (H - 1)
  let x2 := clampPx (truncInt ((el.bbox.x + el.bbox.w + padding) * dpr)) 0 (W - 1)
  let y2 := clampPx (truncInt ((el.bbox.y + el.bbox.h + padding) * dpr)) 0 (H - 1)
  if x2 ≤ x1 ∨ y2 ≤ y1 then none
  else some ⟨elemId el, el.typ, el.text, el.bbox, x1, y1, x2, y2⟩

def drawMeta (dpr : Rat) (W H : Int) (padding : Rat) (els : List ScanElem) :
    List MetaElem :=
  els.filterMap (drawMetaOne dpr W H padding)

theorem scanLoop_ok_idNum (vw vh : Rat) :
    ∀ (cands : List (Except String Candidate)) (n : Nat) (es : List ScanElem),
      scanLoop vw vh cands n = .ok es →
      ∀ i (hi : i < es.length), (es.get ⟨i, hi⟩).idNum = n + 1 + i := by
  intro cands
  induction cands with
  | nil =>
    intro n es hok i hi
    simp only [scanLoop, Except.ok.injEq] at hok
    subst hok
    simp at hi
  | cons c rest ih =>
    intro n es hok i hi
    cases c with
    | error e => exact absurd hok (by simp [scanLoop])
    | ok c =>
      simp only [scanLoop] at hok
      split at hok
      · exact ih n es hok i hi
      · split at hok
        · exact ih n es hok i hi
        · split at hok
          · exact ih n es hok i hi
          · split at hok
            · simp only [Except.ok.injEq] at hok
              subst hok
              simp only [List.length_singleton] at hi
              have hi0 : i = 0 := by omega
              subst hi0
              simp [List.get]
            · split at hok
              · next es' hres => exact absurd hok (by simp)
              · next es' hres =>
                simp only [Except.ok.injEq] at hok
                subst hok
                cases i with
                | zero => simp [List.get]
                | succ j =>
                  have hj : j < es'.length := by simpa using hi
                  have hrec := ih (n + 1) es' hres j hj
                  simp only [List.get_cons_succ]
                  rw [hrec]
                  omega

instance {ε α : Type} [DecidableEq ε] [DecidableEq α] : DecidableEq (Except ε α) := fun a b =>
  match a, b with
  | .error x, .error y =>
    match decEq x y with
    | isTrue h => isTrue (by rw [h])
    | isFalse h => isFalse (fun hc => h (by injection hc))
  | .error _, .ok _ => isFalse (fun hc => Except.noConfusion hc)
  | .ok _, .error _ => isFalse (fun hc => Except.noConfusion hc)
  | .ok x, .ok y =>
    match decEq x y with
    | isTrue h => isTrue (by rw [h])
    | isFalse h => isFalse (fun hc => h (by injection hc))

theorem string_data_inj {a b : String} (h : a.data = b.data) : a = b := by
  cases a; cases b; exact congrArg String.mk h

theorem string_append_left_cancel {p a b : String} (h : p ++ a = p ++ b) : a = b := by
  apply string_data_inj
  have hd : p.data ++ a.data = p.data ++ b.data := by
    have := congrArg String.data h
    simpa [String.data_append] using this
  exact List.append_cancel_left hd

theorem eStr_inj : Function.Injective (fun i : Nat => "E" ++ decStr (i + 1)) := by
  intro a b hab
  simp only at hab
  have := decStr_inj (a + 1) (b + 1) (string_append_left_cancel hab)
  omega

theorem clampQ_nonneg (v hi : Rat) : 0 ≤ clampQ v 0 hi := le_max_left _ _

theorem clampQ_le (v hi : Rat) (h : 0 ≤ hi) : clampQ v 0 hi ≤ hi :=
  max_le h (min_le_left _ _)

theorem drawMeta_id_sublist (dpr : Rat) (W H : Int) (padding : Rat) :
    ∀ els : List ScanElem,
      ((drawMeta dpr W H padding els).map (fun m => m.id)).Sublist (els.map elemId) := by
  intro els
  induction els with
  | nil => simp [drawMeta]
  | cons el rest ih =>
    cases hf : drawMetaOne dpr W H padding el with
    | none =>
      simp only [drawMeta, List.filterMap_cons, hf, List.map_cons]
      exact List.Sublist.cons _ ih
    | some m =>
      have hid : m.id = elemId el := by
        simp only [drawMetaOne] at hf
        split at hf
        · exact absurd hf (by simp)
        · simp only [Option.some.injEq] at hf
          rw [← hf]
      simp only [drawMeta, List.filterMap_cons, hf, List.map_cons, hid]
      exact List.Sublist.cons₂ _ ih

/-- C3 (amended): in any successful scan, the returned element list carries
ids exactly `E1, E2, …, En` in scan order (hence pairwise unique); the ids in
the raster metadata are an order-preserving subsequence of those — unique,
but possibly with gaps, because the drawing loop skips elements whose scaled
pixel box degenerates. -/
theorem snapshot_element_ids (vw vh : Rat) (cands : List (Except String Candidate))
    (maxE : Nat) (es : List ScanElem) (h : scanElements vw vh cands maxE = .ok es) :
    es.map elemId = (List.range es.length).map (fun i : Nat => "E" ++ decStr (i + 1))
    ∧ (es.map elemId).Nodup
    ∧ ∀ (dpr : Rat) (W H : Int) (padding : Rat),
        ((drawMeta dpr W H padding es).map (fun m => m.id)).Sublist (es.map elemId)
    := by
  have hchar : ∀ i (hi : i < es.length), (es.get ⟨i, hi⟩).idNum = i + 1 := by
    unfold scanElements at h
    split at h
    · exact absurd h (by simp)
    · next es0 hs0 =>
      simp only [Except.ok.injEq] at h
      subst h
      intro i hi
      have hi0 : i < es0.length := lt_of_lt_of_le hi (by simp)
      have hget : (es0.take maxE).get ⟨i, hi⟩ = es0.get ⟨i, hi0⟩ := by
        simp [List.get_eq_getElem, List.getElem_take]
      rw [hget]
      have := scanLoop_ok_idNum vw vh cands 0 es0 hs0 i hi0
      omega
  have hmap : es.map elemId =
      (List.range es.length).map (fun i : Nat => "E" ++ decStr (i + 1)) := by
    apply List.ext_get
    · simp
    · intro i h1 h2
      have hi : i < es.length := by simpa using h1
      have hr : i < es.length := by simpa using h2
      simp only [List.get_eq_getElem, List.getElem_map, List.getElem_range]
      show elemId (es.get ⟨i, hi⟩) = "E" ++ decStr (i + 1)
      rw [elemId, hchar i hi]
  refine ⟨hmap, ?_, fun dpr W H padding => drawMeta_id_sublist dpr W H padding es⟩
  rw [hmap]
  exact List.Nodup.map eStr_inj (List.nodup_range _)

/-- A visible 10×10 candidate anchor at `(x, y)`. -/
def mkCand (x y : Rat) : Candidate :=
  ⟨⟨x, y, 10, 10⟩, false, false, "link", "Sample", true, false, "/a", "", ""⟩

def cexCands : List (Except String Candidate) :=
  [.ok (mkCand 0 0), .ok (mkCand 60 0), .ok (mkCand 0 50)]

def cexEls : List ScanElem :=
  [⟨1, "link", "Sample", ⟨0, 0, 10, 10⟩, [("href", "/a")]⟩,
   ⟨2, "link", "Sample", ⟨60, 0, 10, 10⟩, [("href", "/a")]⟩,
   ⟨3, "link", "Sample", ⟨0, 50, 10, 10⟩, [("href", "/a")]⟩]

theorem cexScan_eval : scanElements 100 100 cexCands 400 = .ok cexEls := by
  norm_num [scanElements, scanLoop, isVisible, mkCand, clampQ, candAttrs, cexCands, cexEls]

theorem cexEls_ids_eval : cexEls.map elemId = ["E1", "E2", "E3"] := by
  norm_num [cexEls, elemId, decStr, decDigits]
  decide

theorem cexMeta_eval : (drawMeta 2 100 100 2 cexEls).map (fun m => m.id) = ["E1", "E3"] := by
  norm_num [drawMeta, drawMetaOne, cexEls, clampPx, truncInt, elemId, decStr, decDigits,
    List.filterMap_cons]
  decide

/-- C3 counterexample: with viewport 100×100, device-pixel ratio 2 and a
100×100 raster image, the scan returns elements `E1 E2 E3`, but the raster
metadata keeps only `E1` and `E3`: the scaled pixel box of `E2` (at css
x = 60) collapses against the right image edge and line 512 skips it, so the
metadata ids are NOT contiguous. -/
theorem snapshot_meta_gap_counterexample :
    scanElements 100 100 cexCands 400 = .ok cexEls
    ∧ cexEls.map elemId = ["E1", "E2", "E3"]
    ∧ (drawMeta 2 100 100 2 cexEls).map (fun m => m.id) = ["E1", "E3"]
    ∧ ["E1", "E3"] ≠ ["E1", "E2"] :=
  ⟨cexScan_eval, cexEls_ids_eval, cexMeta_eval, by decide⟩

/-- C3 witness: the amended theorem applied to the concrete three-candidate
scan. -/
theorem snapshot_element_ids_witness :
    cexEls.map elemId =
      (List.range cexEls.length).map (fun i : Nat => "E" ++ decStr (i + 1))
    ∧ (cexEls.map elemId).Nodup :=
  (fun H => ⟨H.1, H.2.1⟩)
    (snapshot_element_ids 100 100 cexCands 400 cexEls cexScan_eval)

theorem scanLoop_ok_bbox (vw vh : Rat) (hvw : 0 ≤ vw) (hvh : 0 ≤ vh) :
    ∀ (cands : List (Except String Candidate)) (n : Nat) (es : List ScanElem),
      scanLoop vw vh cands n = .ok es →
      ∀ e ∈ es, 0 ≤ e.bbox.x ∧ 0 ≤ e.bbox.y ∧ e.bbox.x + e.bbox.w ≤ vw ∧
        e.bbox.y + e.bbox.h ≤ vh ∧ 8 ≤ e.bbox.w ∧ 8 ≤ e.bbox.h := by
  intro cands
  induction cands with
  | nil =>
    intro n es hok e he
    simp only [scanLoop, Except.ok.injEq] at hok
    subst hok
    simp at he
  | cons c rest ih =>
    intro n es hok e he
    cases c with
    | error err => exact absurd hok (by simp [scanLoop])
    | ok c =>
      simp only [scanLoop] at hok
      split at hok
      · exact ih n es hok e he
      · split at hok
        · exact ih n es hok e he
        · split at hok
          · exact ih n es hok e he
          · next hsize =>
            have hbox : ∀ e0 : ScanElem,
                e0 = (⟨n + 1, c.typ, c.text,
                  ⟨clampQ c.rect.x 0 vw, clampQ c.rect.y 0 vh,
                   clampQ (c.rect.x + c.rect.width) 0 vw - clampQ c.rect.x 0 vw,
                   clampQ (c.rect.y + c.rect.height) 0 vh - clampQ c.rect.y 0 vh⟩,
                  candAttrs c⟩ : ScanElem) →
                0 ≤ e0.bbox.x ∧ 0 ≤ e0.bbox.y ∧ e0.bbox.x + e0.bbox.w ≤ vw ∧
                  e0.bbox.y + e0.bbox.h ≤ vh ∧ 8 ≤ e0.bbox.w ∧ 8 ≤ e0.bbox.h := by
              intro e0 he0
              subst he0
              dsimp only
              push_neg at hsize
              refine ⟨clampQ_nonneg _ _, clampQ_nonneg _ _, ?_, ?_, hsize.1, hsize.2⟩
              · have := clampQ_le (c.rect.x + c.rect.width) vw hvw
                linarith
              · have := clampQ_le (c.rect.y + c.rect.height) vh hvh
                linarith
            split at hok
            · simp only [Except.ok.injEq] at hok
              subst hok
              simp only [List.mem_singleton] at he
              exact hbox e he
            · split at hok
              · next es' hres => exact absurd hok (by simp)
              · next es' hres =>
                simp only [Except.ok.injEq] at hok
                subst hok
                rcases List.mem_cons.mp he with he | he
                · exact hbox e he
                · exact ih (n + 1) es' hres e he

/-- C4: every element of a successful scan has a clamped bbox inside
`[0, vw] × [0, vh]` (so `x ≥ 0`, `y ≥ 0`, `x + w ≤ vw`, `y + h ≤ vh`) and its
clamped width and height are at least the configured minimum of 8 css px. -/
theorem bbox_within_viewport (vw vh : Rat) (hvw : 0 ≤ vw) (hvh : 0 ≤ vh)
    (cands : List (Except String Candidate)) (maxE : Nat) (es : List ScanElem)
    (h : scanElements vw vh cands maxE = .ok es) :
    ∀ e ∈ es, 0 ≤ e.bbox.x ∧ 0 ≤ e.bbox.y ∧ e.bbox.x + e.bbox.w ≤ vw ∧
      e.bbox.y + e.bbox.h ≤ vh ∧ 8 ≤ e.bbox.w ∧ 8 ≤ e.bbox.h := by
  intro e he
  unfold scanElements at h
  split at h
  · exact absurd h (by simp)
  · next es0 hs0 =>
    simp only [Except.ok.injEq] at h
    subst h
    exact scanLoop_ok_bbox vw vh hvw hvh cands 0 es0 hs0 e (List.take_subset maxE es0 he)

/-- The single scanned element of the C4 witness run. -/
def wEl : ScanElem := ⟨1, "link", "Sample", ⟨0, 0, 10, 10⟩, [("href", "/a")]⟩

theorem wEl_scan_eval : scanElements 100 100 [.ok (mkCand 0 0)] 400 = .ok [wEl] := by
  norm_num [scanElements, scanLoop, isVisible, mkCand, clampQ, candAttrs, wEl]

/-- C4 witness: the theorem applied to a concrete one-candidate scan in a
100×100 viewport. -/
theorem bbox_within_viewport_witness :
    0 ≤ wEl.bbox.x ∧ 0 ≤ wEl.bbox.y ∧ wEl.bbox.x + wEl.bbox.w ≤ 100 ∧
      wEl.bbox.y + wEl.bbox.h ≤ 100 ∧ 8 ≤ wEl.bbox.w ∧ 8 ≤ wEl.bbox.h :=
  bbox_within_viewport 100 100 (by norm_num) (by norm_num)
    [.ok (mkCand 0 0)] 400 [wEl] wEl_scan_eval wEl (by simp)

/-- C5 (amended): a fault raised while inspecting one candidate is NOT
swallowed — the scan script has no per-candidate handler, so the fault aborts
the whole scan (the page evaluation raises) no matter how many healthy
candidates follow; the orchestrator only catches it one level up, discarding
the entire snapshot. -/
theorem scan_fault_aborts (vw vh : Rat) (e : String)
    (rest : List (Except String Candidate)) (n : Nat) :
    scanLoop vw vh (.error e :: rest) n = .error e := rfl

/-- C5 counterexample: a scan whose first candidate faults and whose second is
a healthy visible element returns the fault, not a snapshot containing the
healthy element. -/
theorem scan_fault_counterexample :
    scanElements 100 100 [.error "TypeError: boom", .ok (mkCand 0 0)] 400 =
      .error "TypeError: boom" := by
  norm_num [scanElements, scanLoop]

/-! ### Cycle detection — `src/orchestrator/orchestrator.py` lines 490–536

After each executed step the orchestrator scans `execution_history` (a list
of `{description, action, result, url}` dicts): if the last result contains
`"Failed"` and the same description failed in at least 2 of the last 3
records, a critical warning is produced; otherwise, if any of the 3 records
preceding the last has the same description and result as the last, a repeat
warning is produced.  The chosen warning is appended to the history string
passed to the next replanning call (lines 531–532). -/

structure ExecRecord where
  description : String
  action : String
  result : String
  url : String
deriving DecidableEq, Repr

/-- `"Failed" in record["result"]`. -/
def hasFailed (r : ExecRecord) : Bool := strContains r.result "Failed"

def criticalWarningMsg : String :=
  "CRITICAL: You are repeatedly failing with the same action. You MUST change strategy. Do NOT try the same action again."

def repeatWarningMsg : String :=
  "WARNING: It seems you are repeating the same action with the same result. You MUST try a different approach."

/-- The body of the cycle check for a nonempty history with last record
`last` (lines 497–529). -/
def cycleWarningAux (h : List ExecRecord) (last : ExecRecord) : String :=
  if hasFailed last = true ∧
      2 ≤ ((lastWindow 3 h).filter
        (fun r => hasFailed r && r.description == last.description)).length then
    criticalWarningMsg
  else if (lastWindow 3 h.dropLast).any
      (fun p => p.description == last.description && p.result == last.result) then
    repeatWarningMsg
  else ""

/-- Lines 492–529: the cycle warning computed from the execution history
(`""` when no cycle is detected or the history has at most one record). -/
def cycleWarning (h : List ExecRecord) : String :=
  if 1 < h.length then
    match h.getLast? with
    | none => ""
    | some last => cycleWarningAux h last
  else ""

/-- Lines 531–532: the warning, when nonempty, is appended to the history
string handed to the next replanning call. -/
def injectWarning (historyStr : String) (h : List ExecRecord) : String :=
  if cycleWarning h ≠ "" then historyStr ++ "\n" ++ cycleWarning h else historyStr

/-- C7: if the most recent record failed (result contains `"Failed"`) and at
least 2 of the last 3 records are failures with that same description, the
critical "change strategy" warning is produced and injected into the next
replanning context. -/
theorem critical_on_repeated_failures (h : List ExecRecord) (last : ExecRecord)
    (hlast : h.getLast? = some last)
    (hfail : hasFailed last = true)
    (hcount : 2 ≤ ((lastWindow 3 h).filter
        (fun r => hasFailed r && r.description == last.description)).length) :
    cycleWarning h = criticalWarningMsg ∧
      ∀ s, injectWarning s h = s ++ "\n" ++ criticalWarningMsg := by
  have hwin : (lastWindow 3 h).length = h.length - (h.length - 3) := by
    simp [lastWindow]
  have hfle := List.length_filter_le
    (fun r => hasFailed r && r.description == last.description) (lastWindow 3 h)
  have hlen : 1 < h.length := by omega
  have hcw : cycleWarning h = criticalWarningMsg := by
    simp only [cycleWarning, hlast]
    rw [if_pos hlen, cycleWarningAux, if_pos ⟨hfail, hcount⟩]
  refine ⟨hcw, fun s => ?_⟩
  rw [injectWarning, hcw, if_pos (by decide)]

/-- The concrete failing record of the C7 witness and C6 counterexample. -/
def failRec : ExecRecord :=
  ⟨"click the submit button", "click", "Failed to click: no target", "https://site.example"⟩

/-- C7 witness: two identical failures in a row trigger the critical warning. -/
theorem critical_on_repeated_failures_witness :
    cycleWarning [failRec, failRec] = criticalWarningMsg ∧
      ∀ s, injectWarning s [failRec, failRec] = s ++ "\n" ++ criticalWarningMsg :=
  critical_on_repeated_failures [failRec, failRec] failRec rfl (by decide) (by decide)

/-- C6 counterexample: the two most recent records have identical description
and identical outcome, yet the repeat warning is NOT produced — the outcome
contains `"Failed"`, so the critical branch fires first. -/
theorem repeat_warning_counterexample :
    cycleWarning [failRec, failRec] ≠ repeatWarningMsg
    ∧ cycleWarning [failRec, failRec] = criticalWarningMsg := by
  exact ⟨by decide, by decide⟩

/-- C6 (amended): if the two most recent records have identical description
and identical outcome AND the outcome does not contain `"Failed"` (so the
critical branch cannot preempt), the repeat warning is produced and injected
into the next replanning context. -/
theorem repeat_warning_on_identical (l : List ExecRecord) (a b : ExecRecord)
    (hdesc : a.description = b.description) (hres : a.result = b.result)
    (hnofail : hasFailed b = false) :
    cycleWarning (l ++ [a, b]) = repeatWarningMsg ∧
      ∀ s, injectWarning s (l ++ [a, b]) = s ++ "\n" ++ repeatWarningMsg := by
  have hsplit : l ++ [a, b] = (l ++ [a]) ++ [b] := by simp
  have hlast : (l ++ [a, b]).getLast? = some b := by
    rw [hsplit]; exact List.getLast?_concat _
  have hdrop : (l ++ [a, b]).dropLast = l ++ [a] := by
    rw [hsplit]; exact List.dropLast_concat ..
  have hlen : 1 < (l ++ [a, b]).length := by simp
  have hmem : a ∈ lastWindow 3 (l ++ [a]) := by
    have hk : (l ++ [a]).length - 3 ≤ l.length := by simp
    rw [lastWindow, List.drop_append_of_le_length hk]
    simp
  have hany : (lastWindow 3 (l ++ [a, b]).dropLast).any
      (fun p => p.description == b.description && p.result == b.result) = true := by
    rw [hdrop, List.any_eq_true]
    refine ⟨a, hmem, ?_⟩
    simp [hdesc, hres]
  have hcw : cycleWarning (l ++ [a, b]) = repeatWarningMsg := by
    simp only [cycleWarning, hlast]
    rw [if_pos hlen, cycleWarningAux, if_neg, if_pos hany]
    intro hc
    rw [hnofail] at hc
    exact absurd hc.1 (by simp)
  refine ⟨hcw, fun s => ?_⟩
  rw [injectWarning, hcw, if_pos (by decide)]

/-- The concrete non-failure repeated record of the C6 witness. -/
def stallRec : ExecRecord :=
  ⟨"scroll the results page", "scroll", "Scrolled down", "https://site.example"⟩

/-- C6 witness: the amended theorem applied to two identical non-failure
records. -/
theorem repeat_warning_on_identical_witness :
    cycleWarning [stallRec, stallRec] = repeatWarningMsg ∧
      ∀ s, injectWarning s [stallRec, stallRec] = s ++ "\n" ++ repeatWarningMsg :=
  repeat_warning_on_identical [] stallRec stallRec rfl rfl (by decide)

/-! ### Control loop — `src/orchestrator/orchestrator.py` lines 156–681

The step-execution loop of `process_request`.  External effects are an
oracle: `stopRequested k` is the value of the caller-set `_stop_requested`
flag at the poll performed when `step_count = k` (line 168); `execResult` is
the net outcome string of the dispatch over `ask_user`/`extract`/`search`/
vision-agent execution (lines 216–359), all of which produce a result string
and append exactly one history record (line 372); the `planner*`/`critique`
fields are the LLM calls of the replanning block (lines 549–681), `.error`
standing for a raised exception.  Popup handling, state capture and the
history-string assembly (lines 403–547) only build the planner's textual
context and are absorbed into the oracle; they append no history record. -/

structure PlanResp where
  steps : List Step
  needsVision : Bool
deriving DecidableEq, Repr

structure LoopOracle where
  stopRequested : Nat → Bool
  execResult : Nat → Step → String
  pageUrl : Nat → String
  finalPageText : Except String String
  planner1 : Nat → Except String PlanResp
  visionScreenshot : Nat → Except String Unit
  plannerVision : Nat → Except String PlanResp
  critique : Nat → Except String (Bool × String)
  plannerCritiqued : Nat → Except String PlanResp
  plannerForced : Nat → Except String PlanResp

/-- Line 649–653: the new plan is a single `extract` step whose description
contains `"complete"`. -/
def isSingleExtractComplete (steps : List Step) : Bool :=
  match steps with
  | [st] => st.action == "extract" && strContains st.description.toLower "complete"
  | _ => false

/-- Line 611–614: the critique pass runs when the plan is nonempty and not a
lone `extract` step. -/
def critiqueApplies (steps : List Step) : Bool :=
  match steps with
  | [] => false
  | [st] => !(st.action == "extract")
  | _ => true

inductive ReplanOutcome
  | newPlan (steps : List Step)
  | plannerDone
  | replanFailed
deriving DecidableEq, Repr

/-- The replanning block of one iteration (lines 549–681): `update_plan`,
the optional vision re-request (with an unguarded screenshot call), the
optional critique re-request; an exception anywhere in the `try` produces
`replanFailed` (`break`), an empty plan or the completion heuristic produce
`plannerDone` (`break`), otherwise the loop continues with the new steps. -/
def replanBlock (o : LoopOracle) (k : Nat) (histNonempty : Bool) : ReplanOutcome :=
  match (do
    let p1 ← o.planner1 k
    let p2 ←
      if p1.needsVision then do
        let _ ← o.visionScreenshot k
        o.plannerVision k
      else pure p1
    let p3 ←
      if critiqueApplies p2.steps then do
        let vc ← o.critique k
        if vc.1 = false then o.plannerCritiqued k else pure p2
      else pure p2
    pure p3 : Except String PlanResp) with
  | .error _ => .replanFailed
  | .ok p =>
    if p.steps.isEmpty then .plannerDone
    else if isSingleExtractComplete p.steps then
      if histNonempty then .plannerDone
      else
        match o.plannerForced k with
        | .error _ => .replanFailed
        | .ok pf => .newPlan pf.steps
    else .newPlan p.steps

inductive LoopExit
  | stoppedByUser
  | finishedStep
  | plannerDone
  | replanFailed
  | loopEnded
  | fuelOut
deriving DecidableEq, Repr

structure RunResult where
  history : List ExecRecord
  results : List String
  exit : LoopExit
deriving DecidableEq, Repr

def stoppedMsg : String := "Execution stopped by user."

/-- Lines 178–186: the final page content of the `finish` branch, with the
5000-character cap. -/
def finishContent (o : LoopOracle) : String :=
  match o.finalPageText with
  | .error _ => "Could not extract content."
  | .ok t => if 5000 < t.length then t.take 5000 ++ "..." else t

/-- The `while plan.steps and step_count < max_steps` loop (lines 167–681),
fuel-driven: poll the stop flag first (lines 168–171), handle a `finish` head
step (lines 175–198), otherwise execute the head step, append exactly one
`ExecutionRecord` (line 372) and one results entry (line 361), and replan. -/
def runLoop (o : LoopOracle) :
    Nat → List Step → Nat → List ExecRecord → List String → RunResult
  | 0, _, _, hist, res => ⟨hist, res, .fuelOut⟩
  | fuel + 1, plan, k, hist, res =>
    if plan.isEmpty = true ∨ 20 ≤ k then ⟨hist, res, .loopEnded⟩
    else if o.stopRequested k = true then
      ⟨hist, res ++ [stoppedMsg], .stoppedByUser⟩
    else
      match plan with
      | [] => ⟨hist, res, .loopEnded⟩
      | step :: _ =>
        if step.action = "finish" then
          ⟨hist ++ [⟨step.description, "finish", "Task Completed Successfully", o.pageUrl k⟩],
           res ++ ["Task Completed. Final Page Content Summary: " ++
             (finishContent o).take 500],
           .finishedStep⟩
        else
          let r := o.execResult k step
          let hist2 := hist ++ [⟨step.description, step.action, r, o.pageUrl k⟩]
          let res2 := res ++ ["Step " ++ intStr step.step_id ++ ": " ++ r]
          match replanBlock o k (!hist2.isEmpty) with
          | .replanFailed => ⟨hist2, res2, .replanFailed⟩
          | .plannerDone => ⟨hist2, res2, .plannerDone⟩
          | .newPlan steps2 => runLoop o fuel steps2 (k + 1) hist2 res2

/-- A plan that keeps the loop running for one more iteration: nonempty with
a non-`finish` head step. -/
def planHeadOk (plan : List Step) : Bool :=
  match plan with
  | [] => false
  | st :: _ => decide (st.action ≠ "finish")

theorem runLoop_stop_general (o : LoopOracle) (N : Nat)
    (hstop : ∀ k, o.stopRequested k = decide (N ≤ k)) (hN : N < 20) :
    ∀ (fuel k : Nat) (plan : List Step) (hist : List ExecRecord) (res : List String),
      k ≤ N → N - k < fuel → planHeadOk plan = true →
      (∀ j, k ≤ j → j < N →
        ∃ s, replanBlock o j true = .newPlan s ∧ planHeadOk s = true) →
      (runLoop o fuel plan k hist res).exit = .stoppedByUser
      ∧ (runLoop o fuel plan k hist res).history.length = hist.length + (N - k)
      ∧ (runLoop o fuel plan k hist res).results.getLast? = some stoppedMsg := by
  intro fuel
  induction fuel with
  | zero => intro k plan hist res hk hfuel _ _; omega
  | succ fuel ih =>
    intro k plan hist res hk hfuel hplan hreplan
    match plan, hplan with
    | step :: rest, hplan =>
      have hstep : step.action ≠ "finish" := by
        simpa [planHeadOk] using hplan
      have hguard : ¬ ((step :: rest).isEmpty = true ∨ 20 ≤ k) := by
        simp
        omega
      by_cases hkN : k = N
      · subst hkN
        have hs : o.stopRequested k = true := by rw [hstop]; simp
        simp only [runLoop, if_neg hguard, if_pos hs]
        refine ⟨by simp, by simp, by simp⟩
      · have hklt : k < N := by omega
        have hs : ¬ (o.stopRequested k = true) := by
          rw [hstop]
          simp
          omega
        simp only [runLoop, if_neg hguard, if_neg hs, if_neg hstep]
        have hne : (!(hist ++
            [⟨step.description, step.action, o.execResult k step, o.pageUrl k⟩]
              : List ExecRecord).isEmpty) = true := by simp
        rw [hne]
        obtain ⟨s, hrb, hsok⟩ := hreplan k (le_refl k) hklt
        rw [hrb]
        have hrec := ih (k + 1) s
          (hist ++ [⟨step.description, step.action, o.execResult k step, o.pageUrl k⟩])
          (res ++ ["Step " ++ intStr step.step_id ++ ": " ++ o.execResult k step])
          (by omega) (by omega) hsok
          (fun j hj1 hj2 => hreplan j (by omega) hj2)
        refine ⟨hrec.1, ?_, hrec.2.2⟩
        rw [hrec.2.1]
        simp
        omega

/-- C8: the cancellation flag is polled at the top of every loop iteration;
if it is first observed set at the poll with `step_count = N` (i.e. the stop
was requested between step N and step N+1), and the plans in play keep the
loop running (nonempty, non-`finish` heads, replanning succeeding), the run
ends with the stopped status, exactly `N` ExecutionRecords, and the final
results entry "Execution stopped by user." — no partial (N+1)-th record. -/
theorem cancellation_exact_records (o : LoopOracle) (N : Nat) (plan0 : List Step)
    (hstop : ∀ k, o.stopRequested k = decide (N ≤ k))
    (hN : N < 20)
    (hplan0 : planHeadOk plan0 = true)
    (hreplan : ∀ k, k < N →
      ∃ s, replanBlock o k true = .newPlan s ∧ planHeadOk s = true) :
    (runLoop o 21 plan0 0 [] []).exit = .stoppedByUser
    ∧ (runLoop o 21 plan0 0 [] []).history.length = N
    ∧ (runLoop o 21 plan0 0 [] []).results.getLast? = some stoppedMsg := by
  have := runLoop_stop_general o N hstop hN 21 0 plan0 [] []
    (by omega) (by omega) hplan0 (fun j _ hj2 => hreplan j hj2)
  simpa using this

def wStep1 : Step := ⟨1, "navigate", "navigate to https://example.com", "Page is open"⟩

def wStep2 : Step := ⟨1, "click", "Click the first result", "Result opens"⟩

def wOracle : LoopOracle :=
  { stopRequested := fun k => decide (1 ≤ k)
  , execResult := fun _ _ => "Navigated to https://example.com"
  , pageUrl := fun _ => "https://example.com"
  , finalPageText := .ok "Example Domain"
  , planner1 := fun _ => .ok ⟨[wStep2], false⟩
  , visionScreenshot := fun _ => .ok ()
  , plannerVision := fun _ => .ok ⟨[wStep2], false⟩
  , critique := fun _ => .ok (true, "")
  , plannerCritiqued := fun _ => .ok ⟨[wStep2], false⟩
  , plannerForced := fun _ => .ok ⟨[wStep2], false⟩ }

/-- C8 witness: with the stop flag raised after the first step, the run stops
with exactly one record. -/
theorem cancellation_exact_records_witness :
    (runLoop wOracle 21 [wStep1] 0 [] []).exit = .stoppedByUser
    ∧ (runLoop wOracle 21 [wStep1] 0 [] []).history.length = 1
    ∧ (runLoop wOracle 21 [wStep1] 0 [] []).results.getLast? = some stoppedMsg :=
  cancellation_exact_records wOracle 1 [wStep1] (fun _ => rfl) (by decide) (by decide)
    (fun k _ => ⟨[wStep2], rfl, by decide⟩)

/-! ### Action Resolver — `src/vlm/vlm.py`, `VisionAgent.execute_step`

`execute_step(step, page, check_stop_callback)` (lines 352–1075).  Every
Playwright / VLM call that can raise is a `PageEnv` field of type
`Except String α`; `try/except` blocks of the source become matches on those
values.  The stop callback is the orchestrator's `lambda: self._stop_requested`
and is modelled as a `Bool`.  Pure text manipulation (`re` searches, slicing,
`lower`, `strip`) is implemented directly. -/

/-- `re.search(r"['\"](.*?)['\"]", s)`: the closing quote scan — content up to
the first quote character, failing at a newline (`.` does not match it). -/
def quotedClose : List Char → List Char → Option (List Char)
  | [], _ => none
  | c :: rest, acc =>
    if c = '\'' || c = '"' then some acc.reverse
    else if c = '\n' then none
    else quotedClose rest (c :: acc)

def extractQuotedAux : List Char → Option (List Char)
  | [] => none
  | c :: rest =>
    if c = '\'' || c = '"' then
      match quotedClose rest [] with
      | some content => some content
      | none => extractQuotedAux rest
    else extractQuotedAux rest

/-- The first quoted substring of `s` (either quote kind on either side). -/
def extractQuoted (s : String) : Option String :=
  (extractQuotedAux s.data).map String.mk

/-- `re.search(r"\[(E\d+)\]", s)`: the first `[E<digits>]` reference, returned
as `E<digits>`. -/
def extractIdRefAux : List Char → Option (List Char)
  | [] => none
  | c :: rest =>
    if c = '[' then
      match rest with
      | 'E' :: rest2 =>
        let ds := rest2.takeWhile Char.isDigit
        if ds.isEmpty then extractIdRefAux rest
        else
          match (rest2.drop ds.length).head? with
          | some ']' => some ('E' :: ds)
          | _ => extractIdRefAux rest
      | _ => extractIdRefAux rest
    else extractIdRefAux rest

def extractIdRef (s : String) : Option String :=
  (extractIdRefAux s.data).map String.mk

/-- Numeric value of a run of decimal digit characters. -/
def digitsToNat (ds : List Char) : Nat := decValue (ds.map (fun c => c.toNat - 48))

/-- `re.search(r":id:(\d+):", s)` followed by `int(...)`. -/
def parseVlmIdAux : List Char → Option Nat
  | [] => none
  | c :: rest =>
    if [':', 'i', 'd', ':'].isPrefixOf (c :: rest) then
      let rest2 := (c :: rest).drop 4
      let ds := rest2.takeWhile Char.isDigit
      if ds.isEmpty then parseVlmIdAux rest
      else
        match (rest2.drop ds.length).head? with
        | some ':' => some (digitsToNat ds)
        | _ => parseVlmIdAux rest
    else parseVlmIdAux rest

def parseVlmId (s : String) : Option Nat := parseVlmIdAux s.data

/-- Python's `\s` (ASCII range). -/
def isPySpace (c : Char) : Bool :=
  c = ' ' || c = '\t' || c = '\n' || c = '\r' || c = '\x0b' || c = '\x0c'

/-- `str.strip()`. -/
def pyStrip (s : String) : String :=
  String.mk (((s.data.dropWhile isPySpace).reverse.dropWhile isPySpace).reverse)

/-- `str.rstrip(cs)`. -/
def pyRstrip (s : String) (cs : List Char) : String :=
  String.mk ((s.data.reverse.dropWhile (fun c => cs.contains c)).reverse)

/-- `re.search(r"(https?://|www\.)\S+", s)`: the earliest position where one
of the three prefixes matches with at least one non-space character after it;
the match is the prefix plus the maximal non-space run. -/
def urlPrefixLen (l : List Char) : Option Nat :=
  if ['h','t','t','p',':','/','/'].isPrefixOf l then some 7
  else if ['h','t','t','p','s',':','/','/'].isPrefixOf l then some 8
  else if ['w','w','w','.'].isPrefixOf l then some 4
  else none

def urlMatchAux : List Char → Option (List Char)
  | [] => none
  | c :: rest =>
    match urlPrefixLen (c :: rest) with
    | some k =>
      let tail := (c :: rest).drop k
      let nonsp := tail.takeWhile (fun x => !(isPySpace x))
      if nonsp.isEmpty then urlMatchAux rest
      else some ((c :: rest).take k ++ nonsp)
    | none => urlMatchAux rest

def urlMatch (s : String) : Option String := (urlMatchAux s.data).map String.mk

/-- `re.sub(f"(?i){pat}", "", s)`: remove every case-insensitive occurrence of
the (lowercase, regex-plain) pattern; fuel keeps the recursion structural. -/
def ciRemoveFuel (pat : List Char) : Nat → List Char → List Char
  | 0, l => l
  | _ + 1, [] => []
  | fuel + 1, c :: rest =>
    if pat.isPrefixOf (List.map Char.toLower (c :: rest)) then
      ciRemoveFuel pat fuel ((c :: rest).drop pat.length)
    else c :: ciRemoveFuel pat fuel rest

def ciRemoveAll (pat s : String) : String :=
  String.mk (ciRemoveFuel pat.data s.data.length s.data)

/-- Lines 506–518: prefixes stripped from a navigate description before the
search-engine fallback. -/
def navPrefixes : List String :=
  ["go to", "перейти на", "перейти", "navigate to", "open", "открыть"]

def navCleanQuery (desc : String) : String :=
  navPrefixes.foldl
    (fun q pre => if strContains q.toLower pre then pyStrip (ciRemoveAll pre q) else q)
    desc

/-- Lines 430–434 / 527–532: the text to type — the first quoted substring of
the description, else `"Python"` (the `elif "Python" in description` branch
assigns the same default). -/
def typeText (desc : String) : String :=
  match extractQuoted desc with
  | some t => t
  | none => "Python"

/-- `re.match(r"^E\d+$", t)`. -/
def isEIdOnly (t : String) : Bool :=
  match t.data with
  | 'E' :: rest => !rest.isEmpty && rest.all Char.isDigit
  | _ => false

/-- The Playwright page, VLM client and keyboard as an oracle.  Each field is
one call site's result; `.error e` is a raised exception with message `e`.
`frames`, `pageUrl` and `vlmClient` are plain attribute reads, which do not
raise. -/
structure PageEnv where
  -- _check_captcha (lines 88–106)
  pageTitle : Except String String
  cfFrameCount : Except String Nat
  rcFrameCount : Except String Nat
  -- _solve_captcha (lines 115–173); frames are their URLs in order
  frames : List String
  frameCheckboxVisible : Nat → String → Except String Bool
  frameCheckboxClick : Nat → String → Except String Unit
  robotCount : Except String Nat
  robotVisible : Except String Bool
  robotClick : Except String Unit
  -- _handle_popups (lines 253–293)
  popupVisible : String → Except String Bool
  popupClick : String → Except String Unit
  -- _force_same_tab (lines 339–350)
  sameTabEval : Except String Unit
  -- _mark_page / _unmark_page (lines 175–251)
  markEval : Except String Nat
  unmarkEval : Except String Unit
  -- ID-based block (lines 386–456)
  idVisible : String → Except String Bool
  idHighlight : String → Except String Unit
  idBox : String → Except String (Option (Rat × Rat × Rat × Rat))
  idMouseMove : String → Except String Unit
  idClick : String → Except String Unit
  idClickForce : String → Except String Unit
  idWaitDom : Except String Unit
  idClickPlain : String → Except String Unit
  idFill : String → Except String Unit
  idTypeChars : String → String → Except String Unit
  idEnterPress : Except String Unit
  idHover : String → Except String Unit
  -- navigate branch (lines 459–524)
  goto : String → Except String Unit
  gotoPlain : String → Except String Unit
  -- type branch (lines 526–621); find_input rounds 0 (before) and 1 (after
  -- the reveal click)
  inputVisible : Nat → String → Except String Bool
  searchBtnVisible : Except String Bool
  searchBtnClick : Except String Unit
  screenshotShot : String → Except String Unit
  vlmTypeResp : Except String String
  typeHandleIsElement : Nat → Except String Bool
  siClick : Except String Unit
  siFill : Except String Unit
  humanType : String → Except String Unit
  enterPress : Except String Unit
  humanTypeBlind : String → Except String Unit
  enterPressBlind : Except String Unit
  -- click branch (lines 623–900)
  pageUrl : String
  clickSearchBtnVisible : Except String Bool
  clickSearchBtnClick : Except String Unit
  firstResultVisible : String → Except String Bool
  firstResultClick : String → Except String Unit
  nextBtnVisible : String → Except String Bool
  nextBtnClick : String → Except String Unit
  roleLinkVisible : String → Except String Bool
  textVisible : String → Except String Bool
  imgAltExactVisible : String → Except String Bool
  imgAltPartialVisible : String → Except String Bool
  inputValVisible : String → Except String Bool
  fuzzyVisible : String → Except String Bool
  foundHighlight : Except String Unit
  foundClick : Except String Unit
  foundClickForce : Except String Unit
  waitDomAfterClick : Except String Unit
  vlmClickResp : Nat → Except String String
  somWheel : Nat → Except String Unit
  somJsScroll : Nat → Nat → Except String Bool
  somEvalHandle : Nat → Nat → Except String Bool
  somElementClick : Nat → Nat → Except String Unit
  somJsClick : Nat → Nat → Except String Unit
  -- hover branch (lines 902–951)
  hoverTextVisible : String → Except String Bool
  hoverTextHover : String → Except String Unit
  vlmHoverResp : Except String String
  hoverEvalHandle : Nat → Except String Bool
  somHover : Nat → Except String Unit
  -- inspect branch (lines 953–985)
  inspectIdVisible : String → Except String Bool
  inspectTextVisible : String → Except String Bool
  inspectTextVisibleAgain : String → Except String Bool
  inspectLocVisible : String → Except String Bool
  inspectTextContent : String → Except String String
  inspectOuterHtml : String → Except String String
  -- scroll branch (lines 991–994)
  scrollWheel : Except String Unit
  -- extract branch (lines 996–1070)
  extLinkVisible : String → Except String Bool
  extLinkHref : String → Except String (Option String)
  extResolveUrl : String → Except String String
  extImgVisible : String → Except String Bool
  extImgSrc : String → Except String (Option String)
  extResolveUrlImg : String → Except String String
  vlmExtractData : Except String String
  pageTitleCall : Except String String
  h1Visible : Except String Bool
  h1Text : Except String String
  bodyText : Except String String
  -- self.vlm.client truthiness (attribute read)
  vlmClient : Bool

/-- `_check_captcha` (lines 88–106): the whole body is in a `try` whose
handler returns `False`. -/
def checkCaptcha (env : PageEnv) : Bool :=
  match (do
    let title ← env.pageTitle
    let t := title.toLower
    if strContains t "captcha" || strContains t "bot" || strContains t "human" ||
        strContains t "security check" then
      pure true
    else do
      let c1 ← env.cfFrameCount
      if 0 < c1 then pure true
      else do
        let c2 ← env.rcFrameCount
        pure (0 < c2) : Except String Bool) with
  | .ok b => b
  | .error _ => false

/-- The checkbox selectors of `_solve_captcha` (lines 132–137). -/
def captchaSelectors : List String :=
  ["input[type='checkbox']", ".recaptcha-checkbox-border", ".ctp-checkbox-label", "#checkbox"]

def solveFrameSelLoop (env : PageEnv) (f : Nat) : List String → Except String Bool
  | [] => pure false
  | sel :: rest => do
    let v ← env.frameCheckboxVisible f sel
    if v then do
      let _ ← env.frameCheckboxClick f sel
      pure true
    else solveFrameSelLoop env f rest

/-- The frame loop of `_solve_captcha` (lines 124–152): each frame body is in
a `try` whose handler `continue`s; a click breaks out. -/
def solveFrames (env : PageEnv) : List (Nat × String) → Bool
  | [] => false
  | (i, furl) :: rest =>
    let attempt : Except String Bool :=
      if strContains furl "cloudflare" || strContains furl "turnstile" ||
          strContains furl "recaptcha" then
        solveFrameSelLoop env i captchaSelectors
      else pure false
    match attempt with
    | .ok true => true
    | _ => solveFrames env rest

/-- `_solve_captcha` (lines 115–173): returns whether anything was clicked;
all raising calls sit under per-frame or main-page handlers. -/
def solveCaptcha (env : PageEnv) : Bool :=
  if solveFrames env env.frames.enum then true
  else
    match (do
      let n ← env.robotCount
      if 0 < n then do
        let v ← env.robotVisible
        if v then do
          let _ ← env.robotClick
          pure true
        else pure false
      else pure false : Except String Bool) with
    | .ok b => b
    | .error _ => false

/-- The selector list of `VisionAgent._handle_popups` (lines 259–268). -/
def popupSelectors : List String :=
  ["button:has-text('Accept all')", "button:has-text('Allow all')",
   "button:has-text('Принять все')", "button:has-text('Согласиться')",
   "button:has-text('Accept cookies')", "[aria-label='Accept cookies']",
   ".cc-btn.cc-accept", "#onetrust-accept-btn-handler"]

/-- `_handle_popups` (lines 253–293): per-selector `try/except continue`, a
successful click returns immediately; the outer `try` passes. -/
def handlePopupsLoop (env : PageEnv) : List String → Bool
  | [] => false
  | sel :: rest =>
    match (do
      let v ← env.popupVisible sel
      if v then do
        let _ ← env.popupClick sel
        pure true
      else pure false : Except String Bool) with
    | .ok true => true
    | _ => handlePopupsLoop env rest

def handlePopups (env : PageEnv) : Bool := handlePopupsLoop env popupSelectors

/-- `_force_same_tab` (lines 339–350): `try/except pass`. -/
def forceSameTab (env : PageEnv) : Bool :=
  match env.sameTabEval with
  | .ok _ => true
  | .error _ => false

/-- `_mark_page` (lines 175–243): `except` returns 0. -/
def markPage (env : PageEnv) : Nat :=
  match env.markEval with
  | .ok n => n
  | .error _ => 0

/-- `_unmark_page` (lines 245–251): `except pass`. -/
def unmarkPage (env : PageEnv) : Bool :=
  match env.unmarkEval with
  | .ok _ => true
  | .error _ => false

/-- The ID-based interaction block (lines 386–456), which runs when the
description holds an `[E…]` reference.  `.ok (some out)` is a `return`,
`.ok none` falls through to the heuristics, and an uncaught exception is
caught at the block's own `except`, which also falls through. -/
def idBlock (env : PageEnv) (step : Step) (eid : String) :
    Except String (Option String) := do
  let vis ← env.idVisible eid
  if vis then do
    let _ := match env.idHighlight eid with
      | .ok _ => true
      | .error _ => false
    let _ := match (do
        let box? ← env.idBox eid
        match box? with
        | some _ => env.idMouseMove eid
        | none => pure () : Except String Unit) with
      | .ok _ => true
      | .error _ => false
    if step.action = "click" then do
      let _ ←
        match env.idClick eid with
        | .ok u => pure u
        | .error _ => env.idClickForce eid
      let _ := match env.idWaitDom with
        | .ok _ => true
        | .error _ => false
      pure (some ("Clicked element " ++ eid ++ " (ID-based)"))
    else if step.action = "type" then do
      let text := typeText step.description
      let _ ← env.idClickPlain eid
      let _ ← env.idFill eid
      let _ ← env.idTypeChars eid text
      let _ ← env.idEnterPress
      pure (some ("Typed '" ++ text ++ "' into element " ++ eid ++ " (ID-based)"))
    else if step.action = "hover" then do
      let _ ← env.idHover eid
      pure (some ("Hovered over element " ++ eid ++ " (ID-based)"))
    else pure none
  else pure none

/-- The strip set of `url.rstrip(").,;]\"'")` (line 466). -/
def urlStripChars : List Char := [')', '.', ',', ';', ']', '"', '\'']

/-- The `navigate` branch (lines 459–524). -/
def navigateBranch (env : PageEnv) (desc : String) : Except String String :=
  match urlMatch desc with
  | some url0 =>
    let url1 := pyRstrip url0 urlStripChars
    let url2 := if "www.".isPrefixOf url1 then "https://" ++ url1 else url1
    if strContains url2 "." = false then
      pure ("Failed to navigate: Invalid URL '" ++ url2 ++ "'")
    else
      match env.goto url2 with
      | .ok _ =>
        let _ := handlePopups env
        pure ("Navigated to " ++ url2)
      | .error e => pure ("Failed to navigate to " ++ url2 ++ ": " ++ e)
  | none =>
    let low := desc.toLower
    if strContains low "википеди" || strContains low "wikipedia" then do
      let _ ← env.gotoPlain "https://ru.wikipedia.org"
      pure "Navigated to https://ru.wikipedia.org (heuristic)"
    else if strContains low "habr" || strContains low "хабр" then do
      let _ ← env.gotoPlain "https://habr.com/ru/all/"
      pure "Navigated to https://habr.com/ru/all/ (heuristic)"
    else
      let query := navCleanQuery desc
      if query ≠ "" then do
        let _ ← env.gotoPlain ("https://www.google.com/search?q=" ++ query)
        pure ("Navigated to Google Search for '" ++ query ++
          "'. You are now on the search results page. DO NOT navigate again. CLICK on a relevant result link.")
      else pure "Failed to navigate: No URL found"

/-- The input selector list of the `type` branch (lines 536–545). -/
def typeSelectors : List String :=
  ["input[name='q']", "input[name='search']", "input[type='search']",
   "input[placeholder*='search']", "input[placeholder*='поиск']",
   "input[aria-label*='search']", "input[aria-label*='поиск']", "input"]

/-- `find_input` (lines 547–554): per-selector `try/except continue`. -/
def findInput (env : PageEnv) (round : Nat) : List String → Option String
  | [] => none
  | sel :: rest =>
    match env.inputVisible round sel with
    | .ok true => some sel
    | _ => findInput env round rest

/-- Lines 558–570: click a search button to reveal the input, then re-run
`find_input`; the whole attempt is `try/except pass`. -/
def revealInput (env : PageEnv) : Option String :=
  match (do
    let v ← env.searchBtnVisible
    if v then do
      let _ ← env.searchBtnClick
      pure true
    else pure false : Except String Bool) with
  | .ok true => findInput env 1 typeSelectors
  | _ => none

/-- Lines 572–597: the VLM fallback locating an input field; any exception is
caught (`print`) and leaves the input unset.  `evaluate_handle` returns a
truthy handle; `as_element()` may yield no element. -/
def vlmFindInput (env : PageEnv) : Option Nat :=
  let _ := markPage env
  match (do
    let _ ← env.screenshotShot "screenshots/type_target.png"
    let _ := unmarkPage env
    let resp ← env.vlmTypeResp
    match parseVlmId resp with
    | none => pure none
    | some n => do
      let isEl ← env.typeHandleIsElement n
      if isEl then pure (some n) else pure none : Except String (Option Nat)) with
  | .ok r => r
  | .error _ => none

/-- Lines 614–621: blind typing, the last resort of the `type` branch. -/
def blindType (env : PageEnv) (text : String) : String :=
  match (do
    let _ ← env.humanTypeBlind text
    env.enterPressBlind : Except String Unit) with
  | .ok _ => "Typed '" ++ text ++ "' blindly"
  | .error e => "Error typing: " ++ e

/-- Lines 599–612: type into the located input; on any exception fall through
to blind typing. -/
def typeIntoFound (env : PageEnv) (text selLabel : String) : String :=
  match (do
    let _ ← env.siClick
    let _ ← env.siFill
    let _ ← env.humanType text
    env.enterPress : Except String Unit) with
  | .ok _ => "Typed '" ++ text ++ "' into " ++ selLabel
  | .error _ => blindType env text

/-- The `type` branch (lines 526–621). -/
def typeBranch (env : PageEnv) (stop : Bool) (desc : String) : Except String String :=
  let text := typeText desc
  match findInput env 0 typeSelectors with
  | some sel => pure (typeIntoFound env text sel)
  | none =>
    match revealInput env with
    | some sel => pure (typeIntoFound env text sel)
    | none =>
      if env.vlmClient then
        if stop then pure "Execution stopped by user."
        else
          match vlmFindInput env with
          | some n => pure (typeIntoFound env text ("VLM ID " ++ decStr n))
          | none => pure (blindType env text)
      else pure (blindType env text)

/-- Selectors of the first-result heuristic (lines 678–683). -/
def firstResultSelectors : List String :=
  ["article h2 a", ".search-results a", "h3 a", ".result a"]

/-- Selectors of the next/arrow heuristic (lines 702–712). -/
def nextSelectors : List String :=
  ["button[aria-label*='next']", "button[aria-label*='Next']", "button[class*='next']",
   "button[class*='arrow']", "div[class*='arrow-right']", "svg[class*='arrow']",
   "[aria-label='Next']", ".slick-next", ".swiper-button-next"]

/-- One heuristic selector loop inside a single `try` (lines 675–690 and
700–721): an exception anywhere abandons the whole loop. -/
def heuristicLoop (visible : String → Except String Bool)
    (click : String → Except String Unit) (msg : String → String) :
    List String → Except String (Option String)
  | [] => pure none
  | sel :: rest => do
    let v ← visible sel
    if v then do
      let _ ← click sel
      pure (some (msg sel))
    else heuristicLoop visible click msg rest

/-- The target resolution chain of the `click` branch (lines 726–773); the
input-value and fuzzy-XPath probes have their own `try/except pass`. -/
def resolveTarget (env : PageEnv) (t : String) : Except String Bool := do
  let v1 ← env.roleLinkVisible t
  if v1 then pure true
  else do
    let v2 ← env.textVisible t
    if v2 then pure true
    else do
      let v3 ← env.imgAltExactVisible t
      if v3 then pure true
      else do
        let v4 ← env.imgAltPartialVisible t
        if v4 then pure true
        else
          let v5 := match env.inputValVisible t with
            | .ok b => b
            | .error _ => false
          if v5 then pure true
          else
            let v6 := match env.fuzzyVisible t with
              | .ok b => b
              | .error _ => false
            pure v6

/-- Clicking the resolved element (lines 775–811): highlight under its own
`try`, a failed click retried with `force=True` when the message mentions an
intercepted or invisible target, every failure becoming an outcome string. -/
def clickFoundSeq (env : PageEnv) (t : String) : String :=
  let _ := match env.foundHighlight with
    | .ok _ => true
    | .error _ => false
  match env.foundClick with
  | .ok _ =>
    let _ := match env.waitDomAfterClick with
      | .ok _ => true
      | .error _ => false
    "Clicked '" ++ t ++ "'"
  | .error e =>
    if strContains e "intercepts pointer events" || strContains e "visible" then
      match env.foundClickForce with
      | .ok _ => "Force clicked '" ++ t ++ "' (original click was blocked)"
      | .error e2 =>
        "Error force clicking '" ++ t ++ "': " ++ e2 ++ ". Original error: " ++ e
    else "Error clicking '" ++ t ++ "': " ++ e

/-- The `if target_text:` block (lines 723–816): resolution under a `try`
whose handler yields the finding-error outcome. -/
def targetClick (env : PageEnv) (t : String) : String :=
  match resolveTarget env t with
  | .ok true => clickFoundSeq env t
  | .ok false => "Failed to click: Element '" ++ t ++ "' not found or not visible"
  | .error e => "Error finding/clicking '" ++ t ++ "': " ++ e

/-- One VLM Set-of-Marks click attempt (lines 826–896): `.ok (some out)` is a
`return`, `.ok none` continues the attempt loop, and an exception is caught
by the attempt-level `except` (also continuing). -/
def clickAttempt (env : PageEnv) (attempt : Nat) : Except String (Option String) :=
  let _ := markPage env
  do
    let _ ← env.screenshotShot "screenshots/click_target.png"
    let _ := unmarkPage env
    let resp ← env.vlmClickResp attempt
    if strContains resp ":not_found:" then do
      let _ ← env.somWheel attempt
      pure none
    else
      match parseVlmId resp with
      | none => pure none
      | some elId => do
        let found ← env.somJsScroll attempt elId
        if found then
          match (do
            let isEl ← env.somEvalHandle attempt elId
            if isEl then do
              let _ ← env.somElementClick attempt elId
              pure (some ("Clicked element #" ++ decStr elId ++ " using VLM SoM"))
            else pure none : Except String (Option String)) with
          | .ok r => pure r
          | .error _ => do
            let _ ← env.somJsClick attempt elId
            pure (some ("Clicked element #" ++ decStr elId ++ " using JS fallback"))
        else pure none

/-- The tail of the `click` branch: text-target click, else the VLM loop,
else the no-target outcome (lines 723–900). -/
def clickMain (env : PageEnv) (stop : Bool) (target? : Option String) :
    Except String String :=
  match target? with
  | some t => pure (targetClick env t)
  | none =>
    if env.vlmClient then
      if stop then pure "Execution stopped by user."
      else
        match clickAttempt env 0 with
        | .ok (some out) => pure out
        | _ =>
          if stop then pure "Execution stopped by user."
          else
            match clickAttempt env 1 with
            | .ok (some out) => pure out
            | _ => pure "Failed to click: VLM could not find target after scrolling"
    else pure "Failed to click: No target found"

/-- The `click` branch after the first-result heuristic (lines 692–900). -/
def clickAfterFirstResult (env : PageEnv) (stop : Bool)
    (target? : Option String) (low : String) : Except String String :=
  -- next/arrow heuristic (lines 693–721)
  if (strContains low "next" || strContains low "arrow" || strContains low "right" ||
      strContains low "далее" || strContains low "вправо") = true then
    match heuristicLoop env.nextBtnVisible env.nextBtnClick
        (fun sel => "Clicked next/arrow button using selector '" ++ sel ++ "'")
        nextSelectors with
    | .ok (some out) => pure out
    | _ => clickMain env stop target?
  else clickMain env stop target?

/-- The `click` branch after the search-button heuristic (lines 666–900). -/
def clickAfterSearchBtn (env : PageEnv) (stop : Bool) (desc : String)
    (target? : Option String) (low : String) : Except String String :=
  -- first-result heuristic (lines 667–690)
  if target?.isNone ∧ strContains low "first" = true ∧
      (strContains low "result" || strContains low "link") = true then
    match heuristicLoop env.firstResultVisible env.firstResultClick
        (fun sel => "Clicked first result using selector '" ++ sel ++ "'")
        firstResultSelectors with
    | .ok (some out) => pure out
    | _ => clickAfterFirstResult env stop target? low
  else clickAfterFirstResult env stop target? low

/-- The `click` branch (lines 623–900). -/
def clickBranch (env : PageEnv) (stop : Bool) (desc : String) : Except String String :=
  let target? : Option String :=
    match extractQuoted desc with
    | some t => some t
    | none => if strContains desc "Python" then some "Python" else none
  let low := desc.toLower
  let isSearchBtnDesc :=
    strContains low "button" || strContains low "icon" || strContains low "btn"
  let isSearchResults :=
    strContains env.pageUrl "search/?q=" || strContains env.pageUrl "search?q="
  -- search-button heuristic (lines 641–664)
  if target?.isNone ∧ (strContains low "search" || strContains low "поиск") = true ∧
      isSearchBtnDesc = true then
    if isSearchResults then
      pure "Skipped clicking search button (already on search results)"
    else
      match (do
        let v ← env.clickSearchBtnVisible
        if v then do
          let _ ← env.clickSearchBtnClick
          pure true
        else pure false : Except String Bool) with
      | .ok true => pure "Clicked search button (heuristic)"
      | _ => clickAfterSearchBtn env stop desc target? low
  else clickAfterSearchBtn env stop desc target? low

/-- The VLM Set-of-Marks hover fallback (lines 919–949): one attempt within a
`try` whose handler falls through to the failure outcome. -/
def hoverVlm (env : PageEnv) (stop : Bool) : Except String String :=
  if env.vlmClient then
    if stop then pure "Execution stopped by user."
    else
      let _ := markPage env
      match (do
        let _ ← env.screenshotShot "screenshots/hover_target.png"
        let _ := unmarkPage env
        let resp ← env.vlmHoverResp
        match parseVlmId resp with
        | some n => do
          let isEl ← env.hoverEvalHandle n
          if isEl then do
            let _ ← env.somHover n
            pure (some ("Hovered over element #" ++ decStr n ++ " using VLM SoM"))
          else pure none
        | none => pure none : Except String (Option String)) with
      | .ok (some out) => pure out
      | _ => pure "Failed to hover"
  else pure "Failed to hover"

/-- The `hover` branch (lines 902–951). -/
def hoverBranch (env : PageEnv) (stop : Bool) (desc : String) : Except String String :=
  match extractQuoted desc with
  | some t =>
    match (do
      let v ← env.hoverTextVisible t
      if v then do
        let _ ← env.hoverTextHover t
        pure true
      else pure false : Except String Bool) with
    | .ok true => pure ("Hovered over '" ++ t ++ "'")
    | _ => hoverVlm env stop
  | none => hoverVlm env stop

/-- The `inspect` branch (lines 953–985). -/
def inspectBranch (env : PageEnv) (desc : String) : Except String String :=
  let target :=
    match extractIdRef desc with
    | some eid => eid
    | none =>
      match extractQuoted desc with
      | some q => q
      | none => desc
  match (do
    let vis ←
      if isEIdOnly target then env.inspectIdVisible target
      else do
        let v1 ← env.inspectTextVisible target
        if v1 then env.inspectTextVisibleAgain target
        else env.inspectLocVisible target
    if vis then do
      let txt ← env.inspectTextContent target
      let html0 ← env.inspectOuterHtml target
      let html :=
        if 500 < html0.length then html0.take 500 ++ "... (truncated)" else html0
      pure ("Inspect Result:\nText: " ++ pyStrip txt ++ "\nHTML: " ++ html)
    else
      pure ("Inspect failed: Element '" ++ target ++ "' not found.")
      : Except String String) with
  | .ok out => pure out
  | .error e => pure ("Inspect error: " ++ e)

/-- Lines 1010–1034: the image-URL probe of the extract-URL heuristic. -/
def extractImgTry (env : PageEnv) (t : String) : Except String (Option String) := do
  let v ← env.extImgVisible t
  if v then do
    let src? ← env.extImgSrc t
    match src? with
    | some src => do
      let full ← env.extResolveUrlImg src
      pure (some ("Extracted Image URL: " ++ full))
    | none => pure none
  else pure none

/-- Lines 1051–1070: the text-extraction fallback, whose `try` handler
converts any exception into an outcome. -/
def extractTextFallback (env : PageEnv) (desc : String) : String :=
  match (do
    if strContains desc.toLower "title" || strContains desc.toLower "заголовок" then do
      let t0 ← env.pageTitleCall
      let v ← env.h1Visible
      let t ← if v then env.h1Text else pure t0
      pure ("Extracted Title: " ++ t)
    else do
      let content ← env.bodyText
      pure ("Extracted Text (snippet): " ++ content.take 200 ++ "...")
      : Except String String) with
  | .ok out => out
  | .error e => "Error extracting: " ++ e

/-- The `extract` branch (lines 996–1070). -/
def extractBranch (env : PageEnv) (desc : String) : Except String String :=
  let low := desc.toLower
  if strContains low "url" || strContains low "link" || strContains low "address" then
    match extractQuoted desc with
    | some t =>
      match (do
        let v ← env.extLinkVisible t
        if v then do
          let href? ← env.extLinkHref t
          match href? with
          | some href => do
            let full ← env.extResolveUrl href
            pure (some ("Extracted Link URL: " ++ full))
          | none => extractImgTry env t
        else extractImgTry env t : Except String (Option String)) with
      | .ok (some out) => pure out
      | _ => pure ("Extracted Page URL: " ++ env.pageUrl)
    | none => pure ("Extracted Page URL: " ++ env.pageUrl)
  else
    if env.vlmClient then
      match (do
        let _ ← env.screenshotShot "screenshots/extract_source.png"
        env.vlmExtractData : Except String String) with
      | .ok r => pure ("VLM Extracted Data: " ++ r)
      | .error _ => pure (extractTextFallback env desc)
    else pure (extractTextFallback env desc)

/-- The dispatch inside the outer `try` of `execute_step` (lines 458–1070,
with the fall-through `return` of line 1075); an uncaught exception here is
the one converted by the handler at line 1072. -/
def mainBody (env : PageEnv) (step : Step) (stop : Bool) : Except String String :=
  if step.action = "navigate" then navigateBranch env step.description
  else if step.action = "type" then typeBranch env stop step.description
  else if step.action = "click" then clickBranch env stop step.description
  else if step.action = "hover" then hoverBranch env stop step.description
  else if step.action = "inspect" then inspectBranch env step.description
  else if step.action = "wait" then pure "Waited 5 seconds."
  else if step.action = "scroll" then do
    let _ ← env.scrollWheel
    pure "Scrolled down"
  else if step.action = "extract" then extractBranch env step.description
  else pure ("Executed " ++ step.action ++ " (no specific logic)")

/-- The `try/except` of lines 458 and 1072–1073. -/
def mainCaught (env : PageEnv) (step : Step) (stop : Bool) : Except String String :=
  match mainBody env step stop with
  | .error e => pure ("Error executing step: " ++ e)
  | .ok out => pure out

/-- `VisionAgent.execute_step` (lines 352–1075): the stop check, the pre-step
guards (each total through its internal handlers), the ID-based block with
its fall-through `except`, and the guarded main dispatch. -/
def executeStep (env : PageEnv) (step : Step) (stop : Bool) : Except String String :=
  if stop then pure "Execution stopped by user."
  else
    let captcha := checkCaptcha env
    let _ := if captcha then solveCaptcha env else false
    let _ := handlePopups env
    let lowDesc := step.description.toLower
    let _ :=
      if strContains lowDesc "new tab" = false ∧ strContains lowDesc "new window" = false
      then forceSameTab env
      else false
    match extractIdRef step.description with
    | some eid =>
      match idBlock env step eid with
      | .error _ => mainCaught env step stop
      | .ok (some out) => pure out
      | .ok none => mainCaught env step stop
    | none => mainCaught env step stop

/-- C9: for every page behaviour (any `PageEnv`, including any pattern of
raised exceptions) and every step, `execute_step` returns an outcome string:
no exception reaches the caller — resolution failures, interaction
exceptions and navigation failures all become outcome text. -/
theorem execute_step_total (env : PageEnv) (step : Step) (stop : Bool) :
    ∃ out, executeStep env step stop = .ok out := by
  have hmain : ∃ out, mainCaught env step stop = .ok out := by
    unfold mainCaught
    match mainBody env step stop with
    | .error e => exact ⟨_, rfl⟩
    | .ok out => exact ⟨_, rfl⟩
  simp only [executeStep]
  split
  · exact ⟨_, rfl⟩
  · split
    · match idBlock env step _ with
      | .error e => exact hmain
      | .ok (some out) => exact ⟨_, rfl⟩
      | .ok none => exact hmain
    · exact hmain
